import Mathlib

/-!
Shallow embedding of the packet normalization and field-aliasing pipeline of
`bin/user/weatherflowudp.py` (WeatherFlow UDP driver, version 1.11).

Modelling choices:
* A decoded JSON message is a Python dict with string keys and values that are
  strings, numbers or nested arrays.  Python dicts preserve insertion order and
  assignment overwrites in place, so a dict is an association list `Dict` with
  the update-or-append operation `dinsert`.
* Numbers (Python int and float literals appearing in packets) are rationals.
* Exceptions that the Python code can raise (`KeyError`, `IndexError`,
  `TypeError` on `str + non-str`, `AttributeError` on `.replace` of a
  non-string) are modelled with `Except PyErr`.
* Calls to `loginf` / `logerr` inside `parseUDPPacket` are collected in a
  `List Log` component of the result.
* `int(time.time())` in the `X_` branch is modelled by an explicit `now : Int`
  argument to `parseUDPPacket`.
-/

/-- A decoded JSON value: string, number, or array. -/
inductive Val : Type where
  | str (s : String) : Val
  | num (q : ℚ) : Val
  | arr (xs : List Val) : Val

/-- A scalar is a string or a number — anything but an array. -/
def Val.isScalar : Val → Bool
  | .arr _ => false
  | _ => true

/-- A Python dict with string keys, as an insertion-ordered association list. -/
abbrev Dict := List (String × Val)

/-- `d[k]` lookup: the value at the first (unique, in a real dict) binding of `k`. -/
def dlookup : Dict → String → Option Val
  | [], _ => none
  | (k', v) :: rest, k => if k' = k then some v else dlookup rest k

/-- Python `k in d`. -/
def dcontains (d : Dict) (k : String) : Bool :=
  (dlookup d k).isSome

/-- Python dict assignment `d[k] = v`: overwrite in place if `k` is bound,
otherwise append at the end (insertion order). -/
def dinsert : Dict → String → Val → Dict
  | [], k, v => [(k, v)]
  | (k', v') :: rest, k, v =>
    if k' = k then (k, v) :: rest else (k', v') :: dinsert rest k v

/-- The keys of a dict, in insertion order. -/
def dkeys (d : Dict) : List String :=
  d.map Prod.fst

/-- Exceptions the pipeline code can raise. -/
inductive PyErr : Type where
  | keyError (k : String) : PyErr
  | indexError : PyErr
  | typeError : PyErr
  | attributeError : PyErr

/-- Log calls made by `parseUDPPacket`: `loginf('Corrupt UDP packet? ...')` and
`logerr("Unknown packet type: ...")`. -/
inductive Log : Type where
  | corrupt (pkt : Dict) : Log
  | unknownType (t : String) : Log

/-- Python `s.replace("-","_")`: the pattern is a single character, so this is
a character-wise substitution. -/
def dashToUnderscore (s : String) : String :=
  String.mk (s.data.map (fun c => if c = '-' then '_' else c))

/-- `pkt_label = serial_number.replace("-","_") + "." + pkt['type']`
(line 231–232 of the driver). -/
def mkLabel (sn t : String) : String :=
  dashToUnderscore sn ++ "." ++ t

/-- A composite flattened key: `key + "." + pkt_label`. -/
def mkKey (f label : String) : String :=
  f ++ "." ++ label

/-- Python `t[0:2]`: the first two characters (shorter when `t` is). -/
def slice2 (t : String) : String :=
  String.mk (t.data.take 2)

/-- The per-type ordered field tables (`fields` dict, lines 201–207). -/
def fields (t : String) : List String :=
  if t = "obs_air" then
    ["time_epoch", "station_pressure", "air_temperature", "relative_humidity",
     "lightning_strike_count", "lightning_strike_avg_distance", "battery",
     "report_interval"]
  else if t = "obs_sky" then
    ["time_epoch", "illuminance", "uv", "rain_accumulated", "wind_lull",
     "wind_avg", "wind_gust", "wind_direction", "battery", "report_interval",
     "solar_radiation", "local_day_rain_accumulation", "precipitation_type",
     "wind_sample_interval"]
  else if t = "rapid_wind" then
    ["time_epoch", "wind_speed", "wind_direction"]
  else if t = "evt_precip" then
    ["time_epoch"]
  else if t = "evt_strike" then
    ["time_epoch", "distance", "energy"]
  else if t = "obs_st" then
    ["time_epoch", "wind_lull", "wind_avg", "wind_gust", "wind_direction",
     "wind_sample_interval", "station_pressure", "air_temperature",
     "relative_humidity", "illuminance", "uv", "solar_radiation",
     "rain_accumulated", "precipitation_type",
     "lightning_strike_avg_distance", "lightning_strike_count", "battery",
     "report_interval"]
  else []

/-- Python `v[i]`: array indexing (IndexError out of range), string indexing
(a one-character string), TypeError on a number. -/
def Val.index : Val → Nat → Except PyErr Val
  | .arr xs, i =>
    match xs.get? i with
    | some v => .ok v
    | none => .error .indexError
  | .str s, i =>
    match s.data.get? i with
    | some c => .ok (.str (String.mk [c]))
    | none => .error .indexError
  | .num _, _ => .error .typeError

/-- Python iteration over `v` (as consumed by `zip`): the elements of an
array, the one-character strings of a string, TypeError on a number. -/
def Val.toIter : Val → Except PyErr (List Val)
  | .arr xs => .ok xs
  | .str s => .ok (s.data.map (fun c => .str (String.mk [c])))
  | .num _ => .error .typeError

/-- Python `pkt[k]` without a preceding `in` guard: KeyError when absent. -/
def getItem (pkt : Dict) (k : String) : Except PyErr Val :=
  match dlookup pkt k with
  | some v => .ok v
  | none => .error (.keyError k)

/-- Run a sequence of dict assignments `d[k] = v` left to right. -/
def writeAll (d : Dict) (l : List (String × Val)) : Dict :=
  l.foldl (fun a kv => dinsert a kv.1 kv.2) d

/-- The raw-field copy loop (lines 233–234):
`for key in pkt: packet[key + "." + pkt_label] = pkt[key]`, starting from the
empty `packet`. -/
def rawCopy (pkt : Dict) (label : String) : Dict :=
  writeAll [] (pkt.map (fun kv => (mkKey kv.1 label, kv.2)))

/-- The `(key, value)` pairs written by the positional zip
`for key, value in zip(fields[t], row): packet[key + "." + pkt_label] = value`. -/
def posWrites (t label : String) (row : List Val) : List (String × Val) :=
  ((fields t).zip row).map (fun fv => (mkKey fv.1 label, fv.2))

/-- `packet['time_epoch'] = arrVal[0]` followed by the positional zip of
`fields[t]` against `arrVal`, on top of the raw-copied `base`. -/
def zipFlatten (base : Dict) (t label : String) (arrVal : Val) :
    Except PyErr Dict := do
  let te ← arrVal.index 0
  let elems ← arrVal.toIter
  .ok (writeAll (dinsert base "time_epoch" te) (posWrites t label elems))

/-- `parseUDPPacket` (lines 227–267).  `now` is the value of
`int(time.time())` observed in the `X_` branch.  The first component is the
returned dict, or the exception the Python code raises; the second component
records the log calls made. -/
def parseUDPPacket (now : Int) (pkt : Dict) : Except PyErr Dict × List Log :=
  match dlookup pkt "serial_number" with
  | none => (.ok [], [.corrupt pkt])
  | some sv =>
    match dlookup pkt "type" with
    | none => (.ok [], [.corrupt pkt])
    | some tv =>
      match sv with
      | .str sn =>
        match tv with
        | .str t =>
          let label := mkLabel sn t
          let base := rawCopy pkt label
          if t = "obs_air" ∨ t = "obs_sky" ∨ t = "obs_st" then
            ((do
              let obs ← getItem pkt "obs"
              let row0 ← obs.index 0
              zipFlatten base t label row0), [])
          else if t = "rapid_wind" then
            ((do
              let ob ← getItem pkt "ob"
              zipFlatten base t label ob), [])
          else if t = "evt_strike" ∨ t = "evt_precip" then
            ((do
              let ev ← getItem pkt "evt"
              zipFlatten base t label ev), [])
          else if t = "device_status" then
            ((do
              let ts ← getItem pkt "timestamp"
              .ok (dinsert base "time_epoch" ts)), [])
          else if t = "hub_status" then
            ((do
              let ts ← getItem pkt "timestamp"
              .ok (dinsert base "time_epoch" ts)), [])
          else if slice2 t = "X_" then
            (.ok (dinsert base "time_epoch" (.num (now : ℚ))), [])
          else
            (.ok base, [.unknownType t])
        | _ => (.error .typeError, [])
      | _ => (.error .attributeError, [])

/-- The weewx `METRICWX` unit-system constant (`weewx.units`, value 0x11 = 17).
weewx is an external dependency of the driver, not part of this repository;
no claim depends on the numeric value, only on its being a fixed tag. -/
def METRICWX : Val :=
  .num 17

/-- An alias (sensor-map) table: output field name to dotted sensor key. -/
abbrev AliasTable := List (String × String)

/-- One iteration of the sensor-map loop (lines 221–223). -/
def aliasStep (flat : Dict) (acc : Dict) (e : String × String) : Dict :=
  match dlookup flat (dashToUnderscore e.2) with
  | some v => dinsert acc e.1 v
  | none => acc

/-- `sendMyLoopPacket` (lines 213–225): seed with `dateTime`/`usUnits` when
`time_epoch` is present, then run the sensor map. -/
def sendMyLoopPacket (pkt : Dict) (sensor_map : AliasTable) : Dict :=
  let packet : Dict :=
    match dlookup pkt "time_epoch" with
    | some te => [("dateTime", te), ("usUnits", METRICWX)]
    | none => []
  sensor_map.foldl (aliasStep pkt) packet

/-- The value the sensor-map loop leaves under output name `n`: the value (in
`flat`) of the last alias entry for `n` whose hyphen-normalized dotted key is
present in `flat`; `none` when no entry matches. -/
def lastAliasValue (flat : Dict) : AliasTable → String → Option Val
  | [], _ => none
  | e :: rest, n =>
    match lastAliasValue flat rest n with
    | some v => some v
    | none =>
      if e.1 = n ∧ dcontains flat (dashToUnderscore e.2) = true then
        dlookup flat (dashToUnderscore e.2)
      else none

/-! ### Concrete example inputs used by scenario theorems and witnesses -/

/-- The spec scenario `obs_air` message. -/
def obsAirMsg : Dict :=
  [("serial_number", .str "AR-00004424"), ("type", .str "obs_air"),
   ("obs", .arr [.arr [.num 1600000000, .num 1015.1, .num 22.3, .num 54,
                       .num 0, .num 0, .num 3.5, .num 1]])]

/-- The spec scenario alias table. -/
def obsAirAlias : AliasTable :=
  [("outTemp", "air_temperature.AR-00004424.obs_air")]

/-- An `obs_air` message whose `obs` key is absent. -/
def noObsMsg : Dict :=
  [("serial_number", .str "AR-00004424"), ("type", .str "obs_air")]

/-- An `obs_air` message whose `obs` array is empty. -/
def emptyObsMsg : Dict :=
  [("serial_number", .str "AR-00004424"), ("type", .str "obs_air"),
   ("obs", .arr [])]

/-- An `obs_air` message whose positional row has only three elements. -/
def shortObsMsg : Dict :=
  [("serial_number", .str "AR-00004424"), ("type", .str "obs_air"),
   ("obs", .arr [.arr [.num 1600000000, .num 1015.1, .num 22.3]])]

/-- An unknown-type message whose serial number contains a hyphen. -/
def snDashMsg : Dict :=
  [("serial_number", .str "A-B"), ("type", .str "zzz")]

/-- An unknown-type message whose serial number contains an underscore where
`snDashMsg` has a hyphen. -/
def snUnderscoreMsg : Dict :=
  [("serial_number", .str "A_B"), ("type", .str "zzz")]

/-- A vendor-extension (`X_`-prefixed) message. -/
def xMsg : Dict :=
  [("serial_number", .str "ST-00000001"), ("type", .str "X_debug")]

/-- An alias table whose single entry names a raw-copied field of `xMsg`. -/
def xAlias : AliasTable :=
  [("extraField", "serial_number.ST-00000001.X_debug")]

/-- A `hub_status` message. -/
def statusMsg : Dict :=
  [("serial_number", .str "HB-00000001"), ("type", .str "hub_status"),
   ("timestamp", .num 1600000000)]

/-! ### Dictionary lemmas -/

theorem dlookup_dinsert (d : Dict) (k q : String) (v : Val) :
    dlookup (dinsert d k v) q = if k = q then some v else dlookup d q := by
  induction d with
  | nil => simp [dinsert, dlookup]
  | cons kv rest ih =>
    obtain ⟨k', v'⟩ := kv
    by_cases h : k' = k
    · subst h
      by_cases hq : k' = q <;> simp [dinsert, dlookup, hq]
    · by_cases hq : k' = q
      · subst hq
        have : ¬ k = k' := fun he => h he.symm
        simp [dinsert, dlookup, h, this]
      · simp [dinsert, dlookup, h, hq, ih]

theorem dcontains_dinsert (d : Dict) (k q : String) (v : Val) :
    dcontains (dinsert d k v) q = true ↔ k = q ∨ dcontains d q = true := by
  unfold dcontains
  rw [dlookup_dinsert]
  by_cases h : k = q <;> simp [h]

theorem dcontains_nil (q : String) : dcontains [] q = false := rfl

theorem writeAll_cons (d : Dict) (kv : String × Val) (l : List (String × Val)) :
    writeAll d (kv :: l) = writeAll (dinsert d kv.1 kv.2) l := rfl

theorem dcontains_writeAll (l : List (String × Val)) (d : Dict) (q : String) :
    dcontains (writeAll d l) q = true ↔ q ∈ l.map Prod.fst ∨ dcontains d q = true := by
  induction l generalizing d with
  | nil => simp [writeAll]
  | cons kv rest ih =>
    rw [writeAll_cons, ih, dcontains_dinsert]
    constructor
    · rintro (h | h | h)
      · exact Or.inl (by simp [h])
      · exact Or.inl (by simp [h])
      · exact Or.inr h
    · rintro (h | h)
      · rcases List.mem_cons.mp h with h | h
        · exact Or.inr (Or.inl h.symm)
        · exact Or.inl h
      · exact Or.inr (Or.inr h)

theorem dcontains_rawCopy (pkt : Dict) (label : String) (q : String) :
    dcontains (rawCopy pkt label) q = true ↔
      q ∈ pkt.map (fun kv => mkKey kv.1 label) := by
  unfold rawCopy
  rw [dcontains_writeAll]
  constructor
  · rintro (h | h)
    · simpa [List.map_map, Function.comp] using h
    · simp [dcontains, dlookup] at h
  · intro h
    exact Or.inl (by simpa [List.map_map, Function.comp] using h)

/-! ### Composite-key lemmas -/

theorem String.append_cancel_right {a b c : String} (h : a ++ c = b ++ c) :
    a = b := by
  have hd := congrArg String.data h
  simp only [String.data_append] at hd
  exact String.ext (List.append_cancel_right hd)

theorem String.append_cancel_left {a b c : String} (h : a ++ b = a ++ c) :
    b = c := by
  have hd := congrArg String.data h
  simp only [String.data_append] at hd
  exact String.ext (List.append_cancel_left hd)

theorem mkKey_field_inj {a b label : String} (h : mkKey a label = mkKey b label) :
    a = b :=
  String.append_cancel_right (String.append_cancel_right h)

theorem mkKey_label_inj {f l1 l2 : String} (h : mkKey f l1 = mkKey f l2) :
    l1 = l2 :=
  String.append_cancel_left (String.append_cancel_left
    (by simpa [mkKey, String.append_assoc] using h))

theorem mkLabel_sn_inj {s1 s2 t : String} (h : mkLabel s1 t = mkLabel s2 t) :
    dashToUnderscore s1 = dashToUnderscore s2 :=
  String.append_cancel_right (String.append_cancel_right h)

theorem mkKey_ne_time_epoch (f label : String) : mkKey f label ≠ "time_epoch" := by
  intro h
  have hd := congrArg String.data h
  simp only [mkKey, String.data_append] at hd
  have hm : '.' ∈ f.data ++ ".".data ++ label.data := by
    refine List.mem_append_left _ (List.mem_append_right _ ?_)
    decide
  rw [hd] at hm
  exact absurd hm (by decide)

/-! ### Sensor-map loop characterization -/

theorem dlookup_foldl_aliasStep (flat : Dict) (amap : AliasTable) (init : Dict)
    (n : String) :
    dlookup (amap.foldl (aliasStep flat) init) n =
      match lastAliasValue flat amap n with
      | some v => some v
      | none => dlookup init n := by
  induction amap generalizing init with
  | nil => simp [lastAliasValue]
  | cons e rest ih =>
    rw [List.foldl_cons, ih]
    cases hl : lastAliasValue flat rest n with
    | some v => simp [lastAliasValue, hl]
    | none =>
      simp only [lastAliasValue, hl]
      unfold aliasStep
      cases hf : dlookup flat (dashToUnderscore e.2) with
      | none =>
        have hc : dcontains flat (dashToUnderscore e.2) = false := by
          simp [dcontains, hf]
        simp [hc]
      | some v =>
        have hc : dcontains flat (dashToUnderscore e.2) = true := by
          simp [dcontains, hf]
        rw [dlookup_dinsert]
        by_cases he : e.1 = n
        · simp [he, hc, hf]
        · simp [he, hc]

theorem foldl_aliasStep_no_hit (flat : Dict) (amap : AliasTable) (init : Dict)
    (h : ∀ e ∈ amap, dcontains flat (dashToUnderscore e.2) = false) :
    amap.foldl (aliasStep flat) init = init := by
  induction amap generalizing init with
  | nil => rfl
  | cons e rest ih =>
    have he := h e (List.mem_cons_self e rest)
    have hf : dlookup flat (dashToUnderscore e.2) = none := by
      cases hx : dlookup flat (dashToUnderscore e.2) with
      | none => rfl
      | some v => rw [dcontains, hx] at he; simp at he
    rw [List.foldl_cons, show aliasStep flat init e = init by
      unfold aliasStep; rw [hf]]
    exact ih _ (fun e' he' => h e' (List.mem_cons_of_mem _ he'))

theorem lastAliasValue_eq_none_of_not_mem (flat : Dict) (amap : AliasTable)
    (n : String) (h : n ∉ amap.map Prod.fst) :
    lastAliasValue flat amap n = none := by
  induction amap with
  | nil => rfl
  | cons e rest ih =>
    have hn : ¬ e.1 = n := fun he => h (by simp [he])
    have hr : lastAliasValue flat rest n = none :=
      ih (fun hm => h (by simp at hm ⊢; exact Or.inr hm))
    simp [lastAliasValue, hr, hn]

theorem lastAliasValue_of_unique (flat : Dict) (amap : AliasTable)
    (n dk : String) (hmem : (n, dk) ∈ amap)
    (hnd : (amap.map Prod.fst).Nodup)
    (hpres : dcontains flat (dashToUnderscore dk) = true) :
    lastAliasValue flat amap n = dlookup flat (dashToUnderscore dk) := by
  obtain ⟨w, hw⟩ : ∃ w, dlookup flat (dashToUnderscore dk) = some w := by
    rw [dcontains] at hpres
    cases hx : dlookup flat (dashToUnderscore dk) with
    | none => rw [hx] at hpres; simp at hpres
    | some w => exact ⟨w, rfl⟩
  induction amap with
  | nil => cases hmem
  | cons e rest ih =>
    rcases List.mem_cons.mp hmem with he | hm
    · have hnr : n ∉ rest.map Prod.fst := by
        rw [List.map_cons, ← he] at hnd
        exact (List.nodup_cons.mp hnd).1
      rw [← he]
      simp only [lastAliasValue,
        lastAliasValue_eq_none_of_not_mem flat rest n hnr]
      simp [hpres]
    · have hnd' : (rest.map Prod.fst).Nodup := by
        rw [List.map_cons] at hnd
        exact (List.nodup_cons.mp hnd).2
      have hr := ih hm hnd'
      rw [hw] at hr
      simp [lastAliasValue, hr, hw]

/-! ### Branch reduction lemmas for `parseUDPPacket` -/

theorem parse_corrupt (now : Int) (pkt : Dict)
    (h : dlookup pkt "serial_number" = none ∨ dlookup pkt "type" = none) :
    parseUDPPacket now pkt = (.ok [], [.corrupt pkt]) := by
  unfold parseUDPPacket
  rcases h with h | h
  · rw [h]
  · rw [h]
    cases dlookup pkt "serial_number" <;> rfl

theorem parse_rollup (now : Int) (pkt : Dict) (sn t : String) (v : Val)
    (vs rest : List Val)
    (ht3 : t = "obs_air" ∨ t = "obs_sky" ∨ t = "obs_st")
    (hs : dlookup pkt "serial_number" = some (.str sn))
    (htp : dlookup pkt "type" = some (.str t))
    (hobs : dlookup pkt "obs" = some (.arr (.arr (v :: vs) :: rest))) :
    parseUDPPacket now pkt =
      (.ok (writeAll (dinsert (rawCopy pkt (mkLabel sn t)) "time_epoch" v)
        (posWrites t (mkLabel sn t) (v :: vs))), []) := by
  unfold parseUDPPacket
  rw [hs, htp]
  simp only [if_pos ht3, getItem, hobs]
  rfl

theorem parse_rollup_no_obs (now : Int) (pkt : Dict) (sn t : String)
    (ht3 : t = "obs_air" ∨ t = "obs_sky" ∨ t = "obs_st")
    (hs : dlookup pkt "serial_number" = some (.str sn))
    (htp : dlookup pkt "type" = some (.str t))
    (hobs : dlookup pkt "obs" = none) :
    parseUDPPacket now pkt = (.error (.keyError "obs"), []) := by
  unfold parseUDPPacket
  rw [hs, htp]
  simp only [if_pos ht3, getItem, hobs]
  rfl

theorem parse_rollup_empty_obs (now : Int) (pkt : Dict) (sn t : String)
    (ht3 : t = "obs_air" ∨ t = "obs_sky" ∨ t = "obs_st")
    (hs : dlookup pkt "serial_number" = some (.str sn))
    (htp : dlookup pkt "type" = some (.str t))
    (hobs : dlookup pkt "obs" = some (.arr [])) :
    parseUDPPacket now pkt = (.error .indexError, []) := by
  unfold parseUDPPacket
  rw [hs, htp]
  simp only [if_pos ht3, getItem, hobs]
  rfl

theorem parse_rapid_wind (now : Int) (pkt : Dict) (sn : String) (v : Val)
    (vs : List Val)
    (hs : dlookup pkt "serial_number" = some (.str sn))
    (htp : dlookup pkt "type" = some (.str "rapid_wind"))
    (hob : dlookup pkt "ob" = some (.arr (v :: vs))) :
    parseUDPPacket now pkt =
      (.ok (writeAll
        (dinsert (rawCopy pkt (mkLabel sn "rapid_wind")) "time_epoch" v)
        (posWrites "rapid_wind" (mkLabel sn "rapid_wind") (v :: vs))), []) := by
  unfold parseUDPPacket
  rw [hs, htp]
  simp only [getItem, hob]
  rfl

theorem parse_evt (now : Int) (pkt : Dict) (sn t : String) (v : Val)
    (vs : List Val)
    (ht2 : t = "evt_strike" ∨ t = "evt_precip")
    (hs : dlookup pkt "serial_number" = some (.str sn))
    (htp : dlookup pkt "type" = some (.str t))
    (hev : dlookup pkt "evt" = some (.arr (v :: vs))) :
    parseUDPPacket now pkt =
      (.ok (writeAll (dinsert (rawCopy pkt (mkLabel sn t)) "time_epoch" v)
        (posWrites t (mkLabel sn t) (v :: vs))), []) := by
  rcases ht2 with rfl | rfl <;>
    (unfold parseUDPPacket; rw [hs, htp]; simp only [getItem, hev]; rfl)

theorem parse_status (now : Int) (pkt : Dict) (sn t : String) (ts : Val)
    (ht2 : t = "device_status" ∨ t = "hub_status")
    (hs : dlookup pkt "serial_number" = some (.str sn))
    (htp : dlookup pkt "type" = some (.str t))
    (hts : dlookup pkt "timestamp" = some ts) :
    parseUDPPacket now pkt =
      (.ok (dinsert (rawCopy pkt (mkLabel sn t)) "time_epoch" ts), []) := by
  rcases ht2 with rfl | rfl <;>
    (unfold parseUDPPacket; rw [hs, htp]; simp only [getItem, hts]; rfl)

theorem parse_X (now : Int) (pkt : Dict) (sn t : String)
    (htX : slice2 t = "X_")
    (hs : dlookup pkt "serial_number" = some (.str sn))
    (htp : dlookup pkt "type" = some (.str t)) :
    parseUDPPacket now pkt =
      (.ok (dinsert (rawCopy pkt (mkLabel sn t)) "time_epoch"
        (.num (now : ℚ))), []) := by
  have h1 : ¬ (t = "obs_air" ∨ t = "obs_sky" ∨ t = "obs_st") := by
    rintro (rfl | rfl | rfl) <;> exact absurd htX (by decide)
  have h2 : ¬ t = "rapid_wind" := by
    rintro rfl; exact absurd htX (by decide)
  have h3 : ¬ (t = "evt_strike" ∨ t = "evt_precip") := by
    rintro (rfl | rfl) <;> exact absurd htX (by decide)
  have h4 : ¬ t = "device_status" := by
    rintro rfl; exact absurd htX (by decide)
  have h5 : ¬ t = "hub_status" := by
    rintro rfl; exact absurd htX (by decide)
  unfold parseUDPPacket
  rw [hs, htp]
  simp only [if_neg h1, if_neg h2, if_neg h3, if_neg h4, if_neg h5,
    if_pos htX]

theorem parse_unknown (now : Int) (pkt : Dict) (sn t : String)
    (h1 : ¬ (t = "obs_air" ∨ t = "obs_sky" ∨ t = "obs_st"))
    (h2 : ¬ t = "rapid_wind")
    (h3 : ¬ (t = "evt_strike" ∨ t = "evt_precip"))
    (h4 : ¬ t = "device_status")
    (h5 : ¬ t = "hub_status")
    (h6 : ¬ slice2 t = "X_")
    (hs : dlookup pkt "serial_number" = some (.str sn))
    (htp : dlookup pkt "type" = some (.str t)) :
    parseUDPPacket now pkt =
      (.ok (rawCopy pkt (mkLabel sn t)), [.unknownType t]) := by
  unfold parseUDPPacket
  rw [hs, htp]
  simp only [if_neg h1, if_neg h2, if_neg h3, if_neg h4, if_neg h5, if_neg h6]

/-! ### List helper lemmas -/

theorem mem_map_fst_zip {α β : Type} (l1 : List α) (l2 : List β) (x : α)
    (h : x ∈ (l1.zip l2).map Prod.fst) : x ∈ l1.take l2.length := by
  induction l1 generalizing l2 with
  | nil => simp at h
  | cons a l1 ih =>
    cases l2 with
    | nil => simp at h
    | cons b l2 =>
      simp only [List.zip_cons_cons, List.map_cons, List.mem_cons] at h
      rcases h with h | h
      · simp [h]
      · simp only [List.length_cons, List.take_succ_cons, List.mem_cons]
        exact Or.inr (ih l2 h)

theorem get_not_mem_take {α : Type} (l : List α) (hnd : l.Nodup) (n i : Nat)
    (hi : i < l.length) (hn : n ≤ i) : l.get ⟨i, hi⟩ ∉ l.take n := by
  induction l generalizing n i with
  | nil => simp at hi
  | cons a l ih =>
    cases n with
    | zero => simp
    | succ m =>
      cases i with
      | zero => exact absurd hn (by omega)
      | succ j =>
        have hnd' := List.nodup_cons.mp hnd
        simp only [List.take_succ_cons, List.mem_cons]
        rintro (h | h)
        · exact hnd'.1 (h ▸ List.get_mem l j _)
        · exact ih hnd'.2 m j (by simpa using hi) (by omega) h

theorem posWrites_length (t label : String) (row : List Val) :
    (posWrites t label row).length = min (fields t).length row.length := by
  simp [posWrites]

theorem mem_posWrites_keys {t label q : String} {row : List Val}
    (h : q ∈ (posWrites t label row).map Prod.fst) :
    ∃ f ∈ (fields t).take row.length, q = mkKey f label := by
  unfold posWrites at h
  rw [List.map_map] at h
  obtain ⟨fv, hfv, hq⟩ := List.mem_map.mp h
  exact ⟨fv.1, mem_map_fst_zip _ _ _ (List.mem_map.mpr ⟨fv, hfv, rfl⟩), hq.symm⟩

/-! ### Claim theorems -/

/-- C2: for the scenario message
`{"serial_number":"AR-00004424","type":"obs_air","obs":[[1600000000,1015.1,22.3,54,0,0,3.5,1]]}`
and the alias table `{outTemp: "air_temperature.AR-00004424.obs_air"}`,
flattening followed by projection yields exactly the Output Record
`{dateTime: 1600000000, outTemp: 22.3, usUnits: METRICWX}` (three bindings,
shown in the dict's insertion order), with no corrupt/unknown log and no
exception. -/
theorem c2_scenario :
    (parseUDPPacket 0 obsAirMsg).2 = [] ∧
    (parseUDPPacket 0 obsAirMsg).1.map
        (fun flat => sendMyLoopPacket flat obsAirAlias) =
      .ok [("dateTime", .num 1600000000), ("usUnits", METRICWX),
           ("outTemp", .num 22.3)] :=
  ⟨rfl, rfl⟩

/-- C5: a decoded message lacking `serial_number` or `type` flattens to the
empty record, logs the corrupt-packet condition, raises nothing, and the
whole pipeline then produces an empty Output Record for any alias table. -/
theorem c5_missing_keys_empty_record (now : Int) (pkt : Dict)
    (h : dlookup pkt "serial_number" = none ∨ dlookup pkt "type" = none) :
    parseUDPPacket now pkt = (.ok [], [.corrupt pkt]) ∧
    ∀ amap : AliasTable, sendMyLoopPacket [] amap = [] := by
  refine ⟨parse_corrupt now pkt h, fun amap => ?_⟩
  unfold sendMyLoopPacket
  exact foldl_aliasStep_no_hit [] amap [] (fun e _ => rfl)

/-- Witness for C5 at the empty object `{}`. -/
theorem c5_witness :
    parseUDPPacket 0 [] = (.ok [], [.corrupt []]) ∧
    sendMyLoopPacket [] obsAirAlias = [] :=
  ⟨(c5_missing_keys_empty_record 0 [] (Or.inl rfl)).1,
   (c5_missing_keys_empty_record 0 [] (Or.inl rfl)).2 obsAirAlias⟩

/-- C6: projection is a total function; the value of the Output Record at any
name `n` is the value of the last alias entry for `n` whose hyphen-normalized
dotted key exists in the flattened record, and otherwise falls back to the
seed — `dateTime` = `time_epoch`'s value and the fixed `METRICWX` tag under
`usUnits` when `time_epoch` is present, nothing when it is absent.  In
particular an alias entry is copied exactly when its normalized key exists
and is silently skipped otherwise. -/
theorem c6_projection_characterization (flat : Dict) (amap : AliasTable)
    (n : String) :
    dlookup (sendMyLoopPacket flat amap) n =
      match lastAliasValue flat amap n with
      | some v => some v
      | none =>
        match dlookup flat "time_epoch" with
        | some te =>
          if "dateTime" = n then some te
          else if "usUnits" = n then some METRICWX else none
        | none => none := by
  unfold sendMyLoopPacket
  rw [dlookup_foldl_aliasStep]
  cases lastAliasValue flat amap n with
  | some v => rfl
  | none =>
    cases dlookup flat "time_epoch" with
    | some te => rfl
    | none => rfl

/-- C10: the sensor map is applied after the seeding step, so an alias table
that maps `dateTime` (or `usUnits`) to a dotted key present in the flattened
record overwrites the seeded value: the final Output Record holds the aliased
value, whereas projection under an empty alias table would have held the
seeded `time_epoch` value (resp. `METRICWX`). -/
theorem c10_alias_overrides_seed (flat : Dict) (amap : AliasTable)
    (n dk : String)
    (hn : n = "dateTime" ∨ n = "usUnits")
    (hte : dcontains flat "time_epoch" = true)
    (hmem : (n, dk) ∈ amap)
    (hnd : (amap.map Prod.fst).Nodup)
    (hpres : dcontains flat (dashToUnderscore dk) = true) :
    dlookup (sendMyLoopPacket flat amap) n = dlookup flat (dashToUnderscore dk) ∧
    dlookup (sendMyLoopPacket flat []) n =
      (if n = "dateTime" then dlookup flat "time_epoch" else some METRICWX) := by
  obtain ⟨w, hw⟩ : ∃ w, dlookup flat (dashToUnderscore dk) = some w := by
    rw [dcontains] at hpres
    cases hx : dlookup flat (dashToUnderscore dk) with
    | none => rw [hx] at hpres; simp at hpres
    | some w => exact ⟨w, rfl⟩
  obtain ⟨te, hteq⟩ : ∃ te, dlookup flat "time_epoch" = some te := by
    rw [dcontains] at hte
    cases hx : dlookup flat "time_epoch" with
    | none => rw [hx] at hte; simp at hte
    | some te => exact ⟨te, rfl⟩
  constructor
  · have hlav := lastAliasValue_of_unique flat amap n dk hmem hnd hpres
    unfold sendMyLoopPacket
    rw [dlookup_foldl_aliasStep, hlav, hw]
  · unfold sendMyLoopPacket
    rw [dlookup_foldl_aliasStep]
    simp only [lastAliasValue, hteq]
    rcases hn with rfl | rfl
    · simp [dlookup]
    · simp [dlookup]

/-- Witness for C10: a flattened record with `time_epoch = 5` and an alias
mapping `dateTime` to a key holding `9`; the final `dateTime` is `9`, while
an empty alias table would have left the seeded `5`. -/
theorem c10_witness :
    dlookup (sendMyLoopPacket [("time_epoch", .num 5), ("x.A.t", .num 9)]
      [("dateTime", "x.A.t")]) "dateTime" =
        dlookup [("time_epoch", .num 5), ("x.A.t", .num 9)]
          (dashToUnderscore "x.A.t") ∧
    dlookup (sendMyLoopPacket [("time_epoch", .num 5), ("x.A.t", .num 9)] [])
      "dateTime" =
        (if "dateTime" = "dateTime" then
          dlookup [("time_epoch", .num 5), ("x.A.t", .num 9)] "time_epoch"
        else some METRICWX) :=
  c10_alias_overrides_seed [("time_epoch", .num 5), ("x.A.t", .num 9)]
    [("dateTime", "x.A.t")] "dateTime" "x.A.t" (Or.inl rfl) rfl
    (List.mem_cons_self _ _) (by decide) rfl

/-- C4 counterexample: the serial numbers `"A-B"` and `"A_B"` are distinct
hardware ids, yet after hyphen normalization the two messages flatten to
identical composite key sets — the claimed collision-freedom for every pair
of distinct hardware ids fails. -/
theorem c4_counterexample :
    "A-B" ≠ "A_B" ∧
    (parseUDPPacket 0 snDashMsg).1.map dkeys =
      .ok ["serial_number.A_B.zzz", "type.A_B.zzz"] ∧
    (parseUDPPacket 0 snUnderscoreMsg).1.map dkeys =
      .ok ["serial_number.A_B.zzz", "type.A_B.zzz"] :=
  ⟨by decide, rfl, rfl⟩

/-- C4 amended: composite keys embed the normalized hardware id, so for one
field name and packet type, two hardware ids whose hyphen-to-underscore
normalizations differ always produce different flattened keys. -/
theorem c4_distinct_normalized_ids (f t s1 s2 : String)
    (h : dashToUnderscore s1 ≠ dashToUnderscore s2) :
    mkKey f (mkLabel s1 t) ≠ mkKey f (mkLabel s2 t) :=
  fun he => h (mkLabel_sn_inj (mkKey_label_inj he))

/-- Witness for amended C4, at the spec's own example serial numbers. -/
theorem c4_witness :
    dashToUnderscore "AR-00004424" ≠ dashToUnderscore "SK-00001234" ∧
    mkKey "battery" (mkLabel "AR-00004424" "obs_air") ≠
      mkKey "battery" (mkLabel "SK-00001234" "obs_air") :=
  ⟨by decide,
   c4_distinct_normalized_ids "battery" "obs_air" "AR-00004424" "SK-00001234"
     (by decide)⟩

/-- C9 counterexample: in the flattened record of the scenario `obs_air`
message, the raw-copied key `obs.AR_00004424.obs_air` holds the whole nested
`obs` array — a non-scalar value — so not every value in a Flattened Record
is a scalar. -/
theorem c9_counterexample :
    (parseUDPPacket 0 obsAirMsg).1.map
        (fun d => (dlookup d "obs.AR_00004424.obs_air").map Val.isScalar) =
      .ok (some false) :=
  rfl

/-- C9 amended: the values written by the positional zip step are exactly a
prefix of the positional row `obs[0]` (so they are scalars whenever the row
holds only scalars); the raw-copy step, by contrast, copies top-level values
verbatim, arrays included. -/
theorem c9_positional_values (t label : String) (row : List Val) :
    (posWrites t label row).map Prod.snd = row.take (fields t).length := by
  unfold posWrites
  rw [List.map_map]
  have : ∀ (l1 : List String) (l2 : List Val),
      (l1.zip l2).map Prod.snd = l2.take l1.length := by
    intro l1
    induction l1 with
    | nil => intro l2; simp
    | cons a l1 ih =>
      intro l2
      cases l2 with
      | nil => simp
      | cons b l2 => simp [ih l2]
  simpa [Function.comp] using this (fields t) row

/-- C7 counterexample: flattening the same decoded `X_`-type datagram at two
different wall-clock instants yields different Flattened Records — the
`X_` branch stores `int(time.time())` as `time_epoch`, so flattening is not
a function of the decoded message alone. -/
theorem c7_counterexample :
    (parseUDPPacket 0 xMsg).1.map (fun d => dlookup d "time_epoch") =
      .ok (some (.num 0)) ∧
    (parseUDPPacket 1 xMsg).1.map (fun d => dlookup d "time_epoch") =
      .ok (some (.num 1)) ∧
    (parseUDPPacket 0 xMsg).1 ≠ (parseUDPPacket 1 xMsg).1 := by
  refine ⟨rfl, rfl, fun h => ?_⟩
  have h2 : (Except.ok (some (Val.num 0)) : Except PyErr (Option Val)) =
      .ok (some (.num 1)) := by
    calc (Except.ok (some (Val.num 0)) : Except PyErr (Option Val))
        = (parseUDPPacket 0 xMsg).1.map (fun d => dlookup d "time_epoch") := rfl
      _ = (parseUDPPacket 1 xMsg).1.map (fun d => dlookup d "time_epoch") := by
          rw [h]
      _ = .ok (some (.num 1)) := rfl
  simp at h2

/-- C7 amended: flattening is deterministic — independent of the current
time — for every decoded message whose `type` value is not an `X_`-prefixed
string (including corrupt and error-raising messages); only the `X_` branch
reads the clock. -/
theorem c7_deterministic_non_X (pkt : Dict) (now1 now2 : Int)
    (h : ∀ t : String, dlookup pkt "type" = some (.str t) → slice2 t ≠ "X_") :
    parseUDPPacket now1 pkt = parseUDPPacket now2 pkt := by
  unfold parseUDPPacket
  cases hs : dlookup pkt "serial_number" with
  | none => rfl
  | some sv =>
    cases ht : dlookup pkt "type" with
    | none => rfl
    | some tv =>
      cases sv with
      | num q => rfl
      | arr a => rfl
      | str sn =>
        cases tv with
        | num q => rfl
        | arr a => rfl
        | str t =>
          have hX := h t ht
          dsimp only
          split_ifs with h1 h2 h3 h4 h5 <;> rfl

/-- Witness for amended C7 at a `hub_status` message and two distinct
instants. -/
theorem c7_witness :
    parseUDPPacket 3 statusMsg = parseUDPPacket 7 statusMsg :=
  c7_deterministic_non_X statusMsg 3 7 (fun t ht => by
    have ht' : (some (Val.str "hub_status") : Option Val) = some (.str t) := ht
    obtain rfl : "hub_status" = t := Val.str.inj (Option.some.inj ht')
    decide)

/-- C1 counterexample: a message with a known positional type whose expected
array key is absent makes `parseUDPPacket` raise `KeyError('obs')`, and one
whose `obs` array is empty makes it raise `IndexError` — the exception
propagates out of the flattening step instead of a record being returned. -/
theorem c1_counterexample :
    (parseUDPPacket 0 noObsMsg).1 = .error (.keyError "obs") ∧
    (parseUDPPacket 0 emptyObsMsg).1 = .error .indexError :=
  ⟨rfl, rfl⟩

/-- C1 amended: `parseUDPPacket` returns a record (raises nothing) for every
decoded message with string `serial_number` and `type` provided each known
positional type carries its expected non-empty array (`obs` with a non-empty
first row for roll-ups, `ob` for rapid_wind, `evt` for events) and the status
types carry `timestamp`; when those arrays are absent or empty the
KeyError/IndexError of the counterexample propagates. -/
theorem c1_parse_ok_of_wellformed (now : Int) (pkt : Dict) (sn t : String)
    (hs : dlookup pkt "serial_number" = some (.str sn))
    (htp : dlookup pkt "type" = some (.str t))
    (hobs : t = "obs_air" ∨ t = "obs_sky" ∨ t = "obs_st" →
      ∃ v vs rest, dlookup pkt "obs" = some (.arr (.arr (v :: vs) :: rest)))
    (hob : t = "rapid_wind" → ∃ v vs, dlookup pkt "ob" = some (.arr (v :: vs)))
    (hev : t = "evt_strike" ∨ t = "evt_precip" →
      ∃ v vs, dlookup pkt "evt" = some (.arr (v :: vs)))
    (hts : t = "device_status" ∨ t = "hub_status" →
      ∃ ts, dlookup pkt "timestamp" = some ts) :
    ∃ d, (parseUDPPacket now pkt).1 = .ok d := by
  by_cases h1 : t = "obs_air" ∨ t = "obs_sky" ∨ t = "obs_st"
  · obtain ⟨v, vs, rest, ho⟩ := hobs h1
    exact ⟨_, by rw [parse_rollup now pkt sn t v vs rest h1 hs htp ho]⟩
  · by_cases h2 : t = "rapid_wind"
    · obtain ⟨v, vs, ho⟩ := hob h2
      subst h2
      exact ⟨_, by rw [parse_rapid_wind now pkt sn v vs hs htp ho]⟩
    · by_cases h3 : t = "evt_strike" ∨ t = "evt_precip"
      · obtain ⟨v, vs, ho⟩ := hev h3
        exact ⟨_, by rw [parse_evt now pkt sn t v vs h3 hs htp ho]⟩
      · by_cases h4 : t = "device_status" ∨ t = "hub_status"
        · obtain ⟨ts, ho⟩ := hts h4
          exact ⟨_, by rw [parse_status now pkt sn t ts h4 hs htp ho]⟩
        · by_cases h6 : slice2 t = "X_"
          · exact ⟨_, by rw [parse_X now pkt sn t h6 hs htp]⟩
          · have h4a : ¬ t = "device_status" := fun hx => h4 (Or.inl hx)
            have h5a : ¬ t = "hub_status" := fun hx => h4 (Or.inr hx)
            exact ⟨_, by
              rw [parse_unknown now pkt sn t h1 h2 h3 h4a h5a h6 hs htp]⟩

/-- Witness for amended C1 at the scenario `obs_air` message. -/
theorem c1_witness :
    dlookup obsAirMsg "serial_number" = some (.str "AR-00004424") ∧
    dlookup obsAirMsg "type" = some (.str "obs_air") ∧
    ∃ d, (parseUDPPacket 0 obsAirMsg).1 = .ok d :=
  ⟨rfl, rfl,
    c1_parse_ok_of_wellformed 0 obsAirMsg "AR-00004424" "obs_air" rfl rfl
      (fun _ => ⟨.num 1600000000,
        [.num 1015.1, .num 22.3, .num 54, .num 0, .num 0, .num 3.5, .num 1],
        [], rfl⟩)
      (fun hx => absurd hx (by decide))
      (fun hx => absurd hx (by decide))
      (fun hx => absurd hx (by decide))⟩

/-- C8 counterexample: for an `X_`-type message the Output Record never
contains only `dateTime`: the seed always adds the `usUnits` tag, and an
alias table entry naming a raw-copied field (here `serial_number`) adds a
third field; so the record `{dateTime}` claimed for any alias table is
wrong. -/
theorem c8_counterexample :
    (parseUDPPacket 5 xMsg).1.map (fun d => sendMyLoopPacket d xAlias) =
      .ok [("dateTime", .num 5), ("usUnits", METRICWX),
           ("extraField", .str "ST-00000001")] ∧
    dkeys [("dateTime", Val.num 5), ("usUnits", METRICWX),
           ("extraField", Val.str "ST-00000001")] ≠ ["dateTime"] :=
  ⟨rfl, by decide⟩

/-- C8 amended: for every well-formed `X_`-type message and every alias table
none of whose hyphen-normalized dotted keys occurs in the flattened record,
the Output Record is exactly `{dateTime: now, usUnits: METRICWX}` — the
current wall-clock time plus the fixed unit tag, and nothing else. -/
theorem c8_X_seeded_only (now : Int) (pkt : Dict) (sn t : String)
    (amap : AliasTable)
    (hs : dlookup pkt "serial_number" = some (.str sn))
    (htp : dlookup pkt "type" = some (.str t))
    (htX : slice2 t = "X_")
    (hmiss : ∀ e ∈ amap,
      dcontains
        (dinsert (rawCopy pkt (mkLabel sn t)) "time_epoch" (.num (now : ℚ)))
        (dashToUnderscore e.2) = false) :
    (parseUDPPacket now pkt).1.map (fun d => sendMyLoopPacket d amap) =
      .ok [("dateTime", .num (now : ℚ)), ("usUnits", METRICWX)] := by
  rw [parse_X now pkt sn t htX hs htp]
  show Except.ok (sendMyLoopPacket _ amap) = _
  unfold sendMyLoopPacket
  rw [show dlookup
      (dinsert (rawCopy pkt (mkLabel sn t)) "time_epoch" (.num (now : ℚ)))
      "time_epoch" = some (.num (now : ℚ)) by
    rw [dlookup_dinsert]; simp]
  rw [foldl_aliasStep_no_hit _ amap _ hmiss]

/-- Witness for amended C8 at `xMsg` with a non-matching alias table. -/
theorem c8_witness :
    (parseUDPPacket 5 xMsg).1.map
        (fun d => sendMyLoopPacket d [("a", "nope")]) =
      .ok [("dateTime", .num 5), ("usUnits", METRICWX)] :=
  c8_X_seeded_only 5 xMsg "ST-00000001" "X_debug" [("a", "nope")] rfl rfl
    (by decide) (by decide)

/-- C3: for a well-formed roll-up message (string `serial_number` and `type`,
roll-up `type`, non-empty positional row `obs[0]`), flattening returns
normally; the positional zip writes exactly
`min (len (fields type)) (len obs[0])` pairs; and when the row is shorter
than the field table, each trailing field (not shadowed by a raw top-level
key of the message) is absent from the resulting Flattened Record. -/
theorem c3_zip_truncation (now : Int) (pkt : Dict) (sn t : String) (v : Val)
    (vs rest : List Val)
    (ht3 : t = "obs_air" ∨ t = "obs_sky" ∨ t = "obs_st")
    (hs : dlookup pkt "serial_number" = some (.str sn))
    (htp : dlookup pkt "type" = some (.str t))
    (hobs : dlookup pkt "obs" = some (.arr (.arr (v :: vs) :: rest))) :
    (parseUDPPacket now pkt).1 =
      .ok (writeAll (dinsert (rawCopy pkt (mkLabel sn t)) "time_epoch" v)
        (posWrites t (mkLabel sn t) (v :: vs))) ∧
    (posWrites t (mkLabel sn t) (v :: vs)).length =
      min (fields t).length (v :: vs).length ∧
    ∀ (i : Nat) (hi : i < (fields t).length), (v :: vs).length ≤ i →
      (fields t).get ⟨i, hi⟩ ∉ dkeys pkt →
      dcontains
        (writeAll (dinsert (rawCopy pkt (mkLabel sn t)) "time_epoch" v)
          (posWrites t (mkLabel sn t) (v :: vs)))
        (mkKey ((fields t).get ⟨i, hi⟩) (mkLabel sn t)) = false := by
  refine ⟨by rw [parse_rollup now pkt sn t v vs rest ht3 hs htp hobs],
    posWrites_length _ _ _, ?_⟩
  intro i hi hrow hnotraw
  by_contra hcon
  rw [Bool.not_eq_false] at hcon
  rcases (dcontains_writeAll _ _ _).mp hcon with hmem | hc2
  · obtain ⟨g, hg, heq⟩ := mem_posWrites_keys hmem
    have hg' : g = (fields t).get ⟨i, hi⟩ := mkKey_field_inj heq.symm
    have hnd : (fields t).Nodup := by
      rcases ht3 with rfl | rfl | rfl <;> decide
    exact get_not_mem_take (fields t) hnd (v :: vs).length i hi hrow
      (hg' ▸ hg)
  · rcases (dcontains_dinsert _ _ _ _).mp hc2 with he | hc3
    · exact mkKey_ne_time_epoch _ _ he.symm
    · obtain ⟨kv, hkv, heq⟩ :=
        List.mem_map.mp ((dcontains_rawCopy pkt _ _).mp hc3)
      exact hnotraw (mkKey_field_inj heq ▸ List.mem_map.mpr ⟨kv, hkv, rfl⟩)

/-- Witness for C3 at an `obs_air` message with a three-element row: three
positional pairs are written (`min 8 3`), the packet parses to a record, and
the fourth field `relative_humidity` is absent. -/
theorem c3_witness :
    (parseUDPPacket 0 shortObsMsg).1 =
      .ok (writeAll
        (dinsert (rawCopy shortObsMsg (mkLabel "AR-00004424" "obs_air"))
          "time_epoch" (.num 1600000000))
        (posWrites "obs_air" (mkLabel "AR-00004424" "obs_air")
          [.num 1600000000, .num 1015.1, .num 22.3])) ∧
    (posWrites "obs_air" (mkLabel "AR-00004424" "obs_air")
      [.num 1600000000, .num 1015.1, .num 22.3]).length = 3 ∧
    dcontains
      (writeAll
        (dinsert (rawCopy shortObsMsg (mkLabel "AR-00004424" "obs_air"))
          "time_epoch" (.num 1600000000))
        (posWrites "obs_air" (mkLabel "AR-00004424" "obs_air")
          [.num 1600000000, .num 1015.1, .num 22.3]))
      (mkKey "relative_humidity" (mkLabel "AR-00004424" "obs_air")) = false :=
  have h := c3_zip_truncation 0 shortObsMsg "AR-00004424" "obs_air"
    (.num 1600000000) [.num 1015.1, .num 22.3] [] (Or.inl rfl) rfl rfl rfl
  ⟨h.1, h.2.1, h.2.2 3 (by decide) (by decide) (by decide)⟩
